import Mathlib

/-!
Shallow embedding of the Lineup Assignment Engine of
`src/src/tools/LineupOptimizerTool.ts` (sleeper-fantasy-mcp).

The engine's data is translated as follows:
* player identifiers are strings, as in the source;
* projected points are rationals (the source uses JS numbers; all the
  branching the claims exercise is on order comparisons and on decimal
  rounding, which rationals model exactly);
* the JS object `playersByPosition` (string-keyed, insertion-ordered) is an
  association list, because `Object.keys` iteration order — insertion
  order — is observable in the `SUPER_FLEX` branch;
* the `usedPlayers` `Set` is a list with decidable membership;
* `toFixed(n)` followed by `Number(...)` is rounding to `n` decimal digits
  (half away from zero on exact decimal inputs), kept as a rational.
-/

abbrev PlayerId := String

/-- One entry of the player pool built in `execute` (lines 92–108):
`{playerId, name, position, team, status, projectedPoints, eligiblePositions}`. -/
structure PoolPlayer where
  playerId : PlayerId
  name : String
  position : String
  team : String
  status : String
  projectedPoints : ℚ
  eligiblePositions : List String
  deriving Repr, DecidableEq

/-- One entry of the optimized lineup: `{...bestPlayer, lineupPosition: position}`
(lines 235–238). -/
structure LineupEntry where
  player : PoolPlayer
  lineupPosition : String
  deriving Repr, DecidableEq

/-- `Number(x.toFixed(2))`: round to two decimal digits.  Modelled as
`⌊100·q + 1/2⌋ / 100` (exact for the decimal literals that occur in the
claims; JS `toFixed` additionally suffers binary-float artifacts on exact
halves, which no claim exercises). -/
def round2 (q : ℚ) : ℚ := (⌊q * 100 + 1/2⌋ : ℤ) / 100

/-- `Number(x.toFixed(1))`: round to one decimal digit, analogously. -/
def round1 (q : ℚ) : ℚ := (⌊q * 10 + 1/2⌋ : ℤ) / 10

/-- A record of the raw `/players/nfl` map, as the optimizer reads it:
the named fields are the ones `execute` and `findLineupChanges` project out.
`objectValues` stands for the record's enumerable values as summed by
`findLineupChanges` line 268, `Object.values(...).reduce((s, p) => s + (p || 0), 0)`;
in the source those values are the string/array fields themselves (JS `+`
then produces a string, and the subtraction `NaN`) — they are modelled as a
list of rationals, the numeric reading most favourable to the spec. -/
structure RawPlayer where
  first_name : String
  last_name : String
  position : String
  team : String
  status : String
  fantasy_positions : Option (List String)
  objectValues : List ℚ
  deriving Repr, DecidableEq

/-- The `stats` object of one projection response; `pts_ppr` may be absent. -/
structure StatsObj where
  pts_ppr : Option ℚ
  deriving Repr, DecidableEq

/-- A parsed projection response body; the `stats` field may be absent. -/
structure ProjectionData where
  stats : Option StatsObj
  deriving Repr, DecidableEq

/-- Outcome of one projection fetch (lines 70–84): the fetch (or body parse)
may throw, or return a response with an `ok` flag and a body. -/
inductive ProjectionFetch where
  | fetchError
  | response (ok : Bool) (data : ProjectionData)
  deriving Repr, DecidableEq

/-- The per-player projection aggregation of `execute` (lines 70–84): a
thrown fetch yields `0` (the `catch` branch), a non-ok response yields `0`,
and an ok response yields `data.stats?.pts_ppr || 0` — `0` when `stats` or
`pts_ppr` is absent (and on the falsy value `0` itself, unchanged). -/
def getProjection : ProjectionFetch → ℚ
  | .fetchError => 0
  | .response false _ => 0
  | .response true d => ((d.stats.bind (fun s => s.pts_ppr)).getD 0)

/-- One entry of the `playerPool` construction (lines 92–108): skip ids
absent from the raw player map (`if (!player) return null`), join the name,
round the projection (`|| 0` for a missing one) to two decimals, and default
`eligiblePositions` to `[position]` when `fantasy_positions` is absent. -/
def mkPoolEntry (players : PlayerId → Option RawPlayer)
    (projections : PlayerId → Option ℚ) (pid : PlayerId) : Option PoolPlayer :=
  match players pid with
  | none => none
  | some r =>
      some
        { playerId := pid
          name := r.first_name ++ " " ++ r.last_name
          position := r.position
          team := r.team
          status := r.status
          projectedPoints := round2 ((projections pid).getD 0)
          eligiblePositions := r.fantasy_positions.getD [r.position] }

/-- The `playerPool` (lines 92–108): map, drop `null`s, keep only players
whose `status` is `'Active'`. -/
def mkPool (ids : List PlayerId) (players : PlayerId → Option RawPlayer)
    (projections : PlayerId → Option ℚ) : List PoolPlayer :=
  (ids.filterMap (mkPoolEntry players projections)).filter
    (fun p => p.status = "Active")

/-- The `current` half of a suggested change (lines 260–263). -/
structure ChangeCurrent where
  playerId : PlayerId
  name : String
  deriving Repr, DecidableEq

/-- The `suggested` half of a suggested change (lines 264–269). -/
structure ChangeSuggested where
  playerId : PlayerId
  name : String
  projectedPointsGain : ℚ
  deriving Repr, DecidableEq

/-- One element of the `changes` array built by `findLineupChanges`
(lines 258–270). -/
structure Change where
  position : ℕ
  current : ChangeCurrent
  suggested : ChangeSuggested
  deriving Repr, DecidableEq

/-- The change pushed at index `i` (lines 258–270).  The gain subtracts, from
the suggested player's projected points, the sum of the values of the
current player's raw record (`0` when the record is absent) — not the
current player's projected points — and formats it with `toFixed(1)`. -/
def mkChange (players : PlayerId → Option RawPlayer) (i : ℕ) (cid : PlayerId)
    (sp : LineupEntry) : Change :=
  { position := i
    current :=
      { playerId := cid
        name :=
          match players cid with
          | some r => r.first_name ++ " " ++ r.last_name
          | none => "Unknown" }
    suggested :=
      { playerId := sp.player.playerId
        name := sp.player.name
        projectedPointsGain :=
          round1 (sp.player.projectedPoints -
            (match players cid with
             | some r => r.objectValues.foldl (fun s p => s + p) 0
             | none => 0)) } }

/-- The `forEach` of `findLineupChanges` (lines 250–273), with the array
index made explicit: at each index, compare the current starter id with
`optimizedLineup[index]?.playerId` (`none` past the end); on a mismatch,
push a change only when the optimal entry exists. -/
def findChangesAux (players : PlayerId → Option RawPlayer)
    (optimizedLineup : List LineupEntry) :
    List PlayerId → ℕ → List Change
  | [], _ => []
  | cid :: rest, i =>
      let tail := findChangesAux players optimizedLineup rest (i + 1)
      if some cid = (optimizedLineup[i]?).map (fun e => e.player.playerId) then
        tail
      else
        match optimizedLineup[i]? with
        | some sp => mkChange players i cid sp :: tail
        | none => tail

/-- `findLineupChanges` (lines 246–276). -/
def findLineupChanges (currentStarters : List PlayerId)
    (optimizedLineup : List LineupEntry)
    (players : PlayerId → Option RawPlayer) : List Change :=
  findChangesAux players optimizedLineup currentStarters 0


/-- Append a player to the group of key `pos`, creating the group at the end
of the association list when absent — JS object insertion-order semantics of
`grouped[position].push(player)` (lines 177–182). -/
def addToGroup (g : List (String × List PoolPlayer)) (pos : String)
    (p : PoolPlayer) : List (String × List PoolPlayer) :=
  match g with
  | [] => [(pos, [p])]
  | (k, ps) :: rest =>
      if k = pos then (k, ps ++ [p]) :: rest else (k, ps) :: addToGroup rest pos p

/-- Insert into a list sorted descending by `projectedPoints`, after every
element with points `≥` the new one: the stable descending order produced by
`Array.prototype.sort((a, b) => b.projectedPoints - a.projectedPoints)`
(line 186; ES2019 `sort` is stable). -/
def insertDesc (p : PoolPlayer) : List PoolPlayer → List PoolPlayer
  | [] => [p]
  | q :: qs =>
      if q.projectedPoints > p.projectedPoints then q :: insertDesc p qs
      else p :: q :: qs

/-- Stable descending insertion sort by `projectedPoints`. -/
def sortDesc : List PoolPlayer → List PoolPlayer
  | [] => []
  | p :: ps => insertDesc p (sortDesc ps)

/-- `groupPlayersByPosition` (lines 174–190): partition the pool by each of a
player's `eligiblePositions`, in input order, then sort every group
descending by projected points. -/
def groupPlayersByPosition (players : List PoolPlayer) :
    List (String × List PoolPlayer) :=
  let grouped := players.foldl
    (fun g p => p.eligiblePositions.foldl (fun g pos => addToGroup g pos p) g) []
  grouped.map (fun kv => (kv.1, sortDesc kv.2))

/-- `playersByPosition[pos]` (absent key behaves as an empty group: the source
guards with `if (playersByPosition[pos])`). -/
def lookupGroup (groups : List (String × List PoolPlayer)) (pos : String) :
    List PoolPlayer :=
  match groups.find? (fun kv => kv.1 = pos) with
  | some kv => kv.2
  | none => []

/-- The body of the `FLEX`/`SUPER_FLEX` scan (lines 207–212, 218–223): skip
used players, replace the incumbent only on strictly greater points. -/
def pickBetter (used : List PlayerId) (best : Option PoolPlayer)
    (p : PoolPlayer) : Option PoolPlayer :=
  if p.playerId ∈ used then best
  else
    match best with
    | none => some p
    | some b => if p.projectedPoints > b.projectedPoints then some p else best

/-- `FLEX` slot: scan the `RB`, `WR`, `TE` groups in that fixed order
(lines 202–214). -/
def bestFlex (groups : List (String × List PoolPlayer)) (used : List PlayerId) :
    Option PoolPlayer :=
  ["RB", "WR", "TE"].foldl
    (fun best pos => (lookupGroup groups pos).foldl (pickBetter used) best) none

/-- `SUPER_FLEX` slot: scan every group in `Object.keys` (insertion) order
(lines 215–224). -/
def bestSuperFlex (groups : List (String × List PoolPlayer))
    (used : List PlayerId) : Option PoolPlayer :=
  groups.foldl (fun best kv => kv.2.foldl (pickBetter used) best) none

/-- Selection for one non-bench slot (lines 200–232): `FLEX` and `SUPER_FLEX`
are scanned; any other string is looked up as a fixed position group, taking
its first not-yet-used player. -/
def pickForSlot (groups : List (String × List PoolPlayer))
    (used : List PlayerId) (position : String) : Option PoolPlayer :=
  if position = "FLEX" then bestFlex groups used
  else if position = "SUPER_FLEX" then bestSuperFlex groups used
  else (lookupGroup groups position).find? (fun p => ¬ p.playerId ∈ used)

/-- The slot loop of `optimizeLineup` (lines 197–241): `BN` slots are skipped;
a found player is pushed with its `lineupPosition` and marked used; when no
player is found nothing is pushed. -/
def optimizeLineupAux (groups : List (String × List PoolPlayer)) :
    List String → List PlayerId → List LineupEntry
  | [], _ => []
  | position :: rest, used =>
      if position = "BN" then optimizeLineupAux groups rest used
      else
        match pickForSlot groups used position with
        | some p =>
            ⟨p, position⟩ :: optimizeLineupAux groups rest (used ++ [p.playerId])
        | none => optimizeLineupAux groups rest used

/-- `optimizeLineup` (lines 192–244). -/
def optimizeLineup (groups : List (String × List PoolPlayer))
    (rosterPositions : List String) : List LineupEntry :=
  optimizeLineupAux groups rosterPositions []

/-- `optimizedLineup.reduce((sum, player) => sum + player.projectedPoints, 0)`
(lines 122–123): the lineup total. -/
def lineupTotal (l : List LineupEntry) : ℚ :=
  l.foldl (fun s e => s + e.player.projectedPoints) 0

/-- `optimizeLineup` with an explicit error channel.  The source function
(lines 192–244) contains no `throw` and performs no input validation, so
every call — whatever the slot strings or the projected-points values —
returns `ok` with the computed lineup. -/
def optimizeLineupE (pool : List PoolPlayer) (rosterPositions : List String) :
    Except String (List LineupEntry) :=
  Except.ok (optimizeLineup (groupPlayersByPosition pool) rosterPositions)

/-! ### General lemmas about the slot loop -/

theorem foldl_pickBetter_notMem (used : List PlayerId) :
    ∀ (ps : List PoolPlayer) (best : Option PoolPlayer),
      (∀ b, best = some b → b.playerId ∉ used) →
      ∀ p, ps.foldl (pickBetter used) best = some p → p.playerId ∉ used := by
  intro ps
  induction ps with
  | nil =>
      intro best h p hp
      exact h p hp
  | cons q qs ih =>
      intro best h p hp
      rw [List.foldl_cons] at hp
      refine ih _ ?_ p hp
      intro b hb
      unfold pickBetter at hb
      split at hb
      · exact h b hb
      · rename_i hq
        cases best with
        | none =>
            simp only [] at hb
            cases hb
            exact hq
        | some b0 =>
            simp only [] at hb
            split at hb
            · cases hb
              exact hq
            · exact h b hb

theorem bestFlex_notMem (groups : List (String × List PoolPlayer))
    (used : List PlayerId) :
    ∀ p, bestFlex groups used = some p → p.playerId ∉ used := by
  intro p hp
  unfold bestFlex at hp
  simp only [List.foldl_cons, List.foldl_nil] at hp
  refine foldl_pickBetter_notMem used _ _ ?_ p hp
  intro b hb
  refine foldl_pickBetter_notMem used _ _ ?_ b hb
  intro c hc
  refine foldl_pickBetter_notMem used _ _ ?_ c hc
  intro d hd
  cases hd

theorem foldl_groups_notMem (used : List PlayerId) :
    ∀ (gs : List (String × List PoolPlayer)) (best : Option PoolPlayer),
      (∀ b, best = some b → b.playerId ∉ used) →
      ∀ p, gs.foldl (fun best kv => kv.2.foldl (pickBetter used) best) best = some p →
        p.playerId ∉ used := by
  intro gs
  induction gs with
  | nil =>
      intro best h p hp
      exact h p hp
  | cons g gs ih =>
      intro best h p hp
      rw [List.foldl_cons] at hp
      exact ih _ (fun b hb => foldl_pickBetter_notMem used _ _ h b hb) p hp

theorem bestSuperFlex_notMem (groups : List (String × List PoolPlayer))
    (used : List PlayerId) :
    ∀ p, bestSuperFlex groups used = some p → p.playerId ∉ used := by
  intro p hp
  unfold bestSuperFlex at hp
  refine foldl_groups_notMem used groups none ?_ p hp
  intro b hb
  cases hb

theorem pickForSlot_notMem (groups : List (String × List PoolPlayer))
    (used : List PlayerId) (position : String) :
    ∀ p, pickForSlot groups used position = some p → p.playerId ∉ used := by
  intro p hp
  unfold pickForSlot at hp
  split at hp
  · exact bestFlex_notMem groups used p hp
  · split at hp
    · exact bestSuperFlex_notMem groups used p hp
    · have := List.find?_some hp
      simpa using this

theorem optimizeLineupAux_notMem_nodup (groups : List (String × List PoolPlayer)) :
    ∀ (slots : List String) (used : List PlayerId),
      (∀ e ∈ optimizeLineupAux groups slots used, e.player.playerId ∉ used) ∧
        ((optimizeLineupAux groups slots used).map
          (fun e => e.player.playerId)).Nodup := by
  intro slots
  induction slots with
  | nil =>
      intro used
      simp [optimizeLineupAux]
  | cons position rest ih =>
      intro used
      unfold optimizeLineupAux
      split
      · exact ih used
      · cases hp : pickForSlot groups used position with
        | none => exact ih used
        | some p =>
            constructor
            · intro e he
              rcases List.mem_cons.1 he with rfl | hm
              · exact pickForSlot_notMem groups used position p hp
              · have h2 := (ih (used ++ [p.playerId])).1 e hm
                intro hin
                exact h2 (List.mem_append_left _ hin)
            · rw [List.map_cons]
              rw [List.nodup_cons]
              constructor
              · intro hmem
                obtain ⟨e, he, hid⟩ := List.mem_map.1 hmem
                have h2 := (ih (used ++ [p.playerId])).1 e he
                apply h2
                rw [hid]
                exact List.mem_append_right _ (List.mem_singleton_self _)
              · exact (ih (used ++ [p.playerId])).2

theorem optimizeLineupAux_length (groups : List (String × List PoolPlayer)) :
    ∀ (slots : List String) (used : List PlayerId),
      (optimizeLineupAux groups slots used).length ≤
        (slots.filter (fun s => s ≠ "BN")).length := by
  intro slots
  induction slots with
  | nil =>
      intro used
      simp [optimizeLineupAux]
  | cons position rest ih =>
      intro used
      unfold optimizeLineupAux
      by_cases hbn : position = "BN"
      · rw [if_pos hbn, hbn]
        simpa using ih used
      · rw [if_neg hbn]
        have hkeep : (position :: rest).filter (fun s => s ≠ "BN") =
            position :: rest.filter (fun s => s ≠ "BN") := by
          simp [List.filter_cons, hbn]
        rw [hkeep]
        cases hp : pickForSlot groups used position with
        | none =>
            exact Nat.le_succ_of_le (ih used)
        | some p =>
            simpa using Nat.succ_le_succ (ih (used ++ [p.playerId]))

theorem optimizeLineupAux_positions (groups : List (String × List PoolPlayer)) :
    ∀ (slots : List String) (used : List PlayerId),
      ∀ e ∈ optimizeLineupAux groups slots used,
        e.lineupPosition ∈ slots ∧ e.lineupPosition ≠ "BN" := by
  intro slots
  induction slots with
  | nil =>
      intro used e he
      simp [optimizeLineupAux] at he
  | cons position rest ih =>
      intro used e he
      unfold optimizeLineupAux at he
      split at he
      · rcases ih used e he with ⟨h1, h2⟩
        exact ⟨List.mem_cons_of_mem _ h1, h2⟩
      · rename_i hbn
        cases hp : pickForSlot groups used position with
        | none =>
            rw [hp] at he
            rcases ih used e he with ⟨h1, h2⟩
            exact ⟨List.mem_cons_of_mem _ h1, h2⟩
        | some p =>
            rw [hp] at he
            rcases List.mem_cons.1 he with rfl | hm
            · exact ⟨List.mem_cons_self _ _, hbn⟩
            · rcases ih (used ++ [p.playerId]) e hm with ⟨h1, h2⟩
              exact ⟨List.mem_cons_of_mem _ h1, h2⟩

theorem optimizeLineupAux_sublist (groups : List (String × List PoolPlayer)) :
    ∀ (slots : List String) (used : List PlayerId),
      ((optimizeLineupAux groups slots used).map
        (fun e => e.lineupPosition)).Sublist slots := by
  intro slots
  induction slots with
  | nil =>
      intro used
      simp [optimizeLineupAux]
  | cons position rest ih =>
      intro used
      unfold optimizeLineupAux
      split
      · exact (ih used).cons _
      · cases hp : pickForSlot groups used position with
        | none => exact (ih used).cons _
        | some p =>
            rw [List.map_cons]
            exact (ih (used ++ [p.playerId])).cons₂ _

/-! ### Stability of the per-group sort -/

theorem filter_insertDesc (c : ℚ) (p : PoolPlayer) :
    ∀ l : List PoolPlayer,
      (insertDesc p l).filter (fun x => x.projectedPoints = c) =
        if p.projectedPoints = c then
          p :: l.filter (fun x => x.projectedPoints = c)
        else l.filter (fun x => x.projectedPoints = c) := by
  intro l
  induction l with
  | nil =>
      by_cases hp : p.projectedPoints = c <;>
        simp [insertDesc, List.filter_cons, hp]
  | cons q qs ih =>
      unfold insertDesc
      split
      · rename_i hgt
        by_cases hq : q.projectedPoints = c
        · have hpc : ¬ p.projectedPoints = c := by
            intro hpc
            rw [hq, hpc] at hgt
            exact lt_irrefl c hgt
          simp [List.filter_cons, hq, hpc, ih]
        · simp [List.filter_cons, hq, ih]
      · by_cases hp : p.projectedPoints = c <;>
          simp [List.filter_cons, hp]

theorem sortDesc_filter_eq (c : ℚ) :
    ∀ l : List PoolPlayer,
      (sortDesc l).filter (fun x => x.projectedPoints = c) =
        l.filter (fun x => x.projectedPoints = c) := by
  intro l
  induction l with
  | nil => rfl
  | cons p ps ih =>
      unfold sortDesc
      rw [filter_insertDesc, List.filter_cons]
      by_cases hp : p.projectedPoints = c
      · rw [if_pos hp, ih, if_pos (by simpa using hp)]
      · rw [if_neg hp, ih, if_neg (by simpa using hp)]

/-! ### Index bound of the diff operation -/

theorem findChangesAux_position_lt (players : PlayerId → Option RawPlayer)
    (optimal : List LineupEntry) :
    ∀ (cur : List PlayerId) (i : ℕ) (c : Change),
      c ∈ findChangesAux players optimal cur i → c.position < optimal.length := by
  intro cur
  induction cur with
  | nil =>
      intro i c hc
      simp [findChangesAux] at hc
  | cons cid rest ih =>
      intro i c hc
      unfold findChangesAux at hc
      split at hc
      · exact ih (i + 1) c hc
      · cases hopt : optimal[i]? with
        | none =>
            rw [hopt] at hc
            exact ih (i + 1) c hc
        | some sp =>
            rw [hopt] at hc
            rcases List.mem_cons.1 hc with rfl | hm
            · have : i < optimal.length := by
                by_contra hge
                rw [List.getElem?_eq_none (Nat.le_of_not_lt hge)] at hopt
                cases hopt
              simpa [mkChange]
            · exact ih (i + 1) c hm

/-! ### Rounding lemmas -/

theorem round2_idem (q : ℚ) : round2 (round2 q) = round2 q := by
  unfold round2
  have h : ((⌊q * 100 + 1/2⌋ : ℤ) : ℚ) / 100 * 100 + 1/2 =
      (⌊q * 100 + 1/2⌋ : ℚ) + 1/2 := by
    field_simp
  rw [h, add_comm, Int.floor_add_int]
  norm_num

theorem mkPoolEntry_round2 (players : PlayerId → Option RawPlayer)
    (projections : PlayerId → Option ℚ) (pid : PlayerId) :
    mkPoolEntry players (fun x => (projections x).map round2) pid =
      mkPoolEntry players projections pid := by
  unfold mkPoolEntry
  cases players pid with
  | none => rfl
  | some r =>
      cases hpr : projections pid <;>
        simp [hpr, round2_idem]

/-! ### Claims -/

/-- C1: the claim says the diff's point differential is the optimal player's
projected points minus the current player's own projected points (Scenario D:
20 − 10 = 10).  The code instead subtracts the sum of the values of the
current player's raw record: with actual = [QB2, RB1],
optimal = [QB1 (20 pts), RB1 (15 pts)], QB2 projected at 10 but its raw
record's values summing to 3 + 4 = 7, the emitted change carries
gain 20 − 7 = 13, not 10. -/
theorem c1_diff_gain_uses_raw_record_sum :
    findLineupChanges ["QB2", "RB1"]
      [⟨⟨"QB1", "Q B1", "QB", "T", "Active", 20, ["QB"]⟩, "QB"⟩,
       ⟨⟨"RB1", "R B1", "RB", "T", "Active", 15, ["RB"]⟩, "RB"⟩]
      (fun pid =>
        if pid = "QB2" then
          some ⟨"Q", "B2", "QB", "T", "Active", some ["QB"], [3, 4]⟩
        else none) =
      [{ position := 0, current := ⟨"QB2", "Q B2"⟩,
         suggested := ⟨"QB1", "Q B1", 13⟩ }] ∧ (13 : ℚ) ≠ 20 - 10 := by
  constructor
  · norm_num [findLineupChanges, findChangesAux, mkChange, round1,
      Int.floor_eq_iff]
    decide
  · norm_num

/-- C2 counterexample: with slots [TE, QB] (two non-bench slots) and a pool
holding only a QB, the computed lineup has a single entry and no entry at all
for the TE slot — the claim's "one entry per non-bench slot, empty slots
present as empty entries" is false of the code, which pushes nothing for an
unfillable slot. -/
theorem c2_counterexample :
    (optimizeLineup
      (groupPlayersByPosition [⟨"QB1", "Q B", "QB", "T", "Active", 20, ["QB"]⟩])
      ["TE", "QB"]).map (fun e => e.lineupPosition) = ["QB"] ∧
    ((["TE", "QB"] : List String).filter (fun s => s ≠ "BN")).length = 2 := by
  decide

/-- C2 (amended): the lineup is an ordered subsequence of the declared slot
list — one entry per non-bench slot for which an eligible, unused, active
player was found, no entry for a bench slot — and a slot with no such player
is omitted (not present as an empty entry); in Scenario C the TE slot is
absent from the result and the total excludes it. -/
theorem c2_lineup_shape :
    (∀ (pool : List PoolPlayer) (slots : List String),
      ((optimizeLineup (groupPlayersByPosition pool) slots).map
        (fun e => e.lineupPosition)).Sublist slots ∧
      ∀ e ∈ optimizeLineup (groupPlayersByPosition pool) slots,
        e.lineupPosition ≠ "BN") ∧
    ((optimizeLineup
        (groupPlayersByPosition
          [⟨"QB1", "Q B", "QB", "T", "Active", 20, ["QB"]⟩])
        ["TE", "QB"]).map (fun e => e.lineupPosition) = ["QB"] ∧
      lineupTotal
        (optimizeLineup
          (groupPlayersByPosition
            [⟨"QB1", "Q B", "QB", "T", "Active", 20, ["QB"]⟩])
          ["TE", "QB"]) = 20) := by
  refine ⟨fun pool slots =>
    ⟨optimizeLineupAux_sublist _ slots [],
     fun e he => ((optimizeLineupAux_positions _ slots []) e he).2⟩, ?_, ?_⟩
  · decide
  · have h :
        optimizeLineup
          (groupPlayersByPosition
            [⟨"QB1", "Q B", "QB", "T", "Active", 20, ["QB"]⟩])
          ["TE", "QB"] =
        [⟨⟨"QB1", "Q B", "QB", "T", "Active", 20, ["QB"]⟩, "QB"⟩] := by
      decide
    rw [h]
    norm_num [lineupTotal]

/-- C2 witness: the general part of `c2_lineup_shape` applied to the
Scenario C input and its single lineup entry. -/
theorem c2_witness :
    (["QB"] : List String).Sublist ["TE", "QB"] ∧ ("QB" : String) ≠ "BN" :=
  ⟨(c2_lineup_shape.1
      [⟨"QB1", "Q B", "QB", "T", "Active", 20, ["QB"]⟩] ["TE", "QB"]).1,
   (c2_lineup_shape.1
      [⟨"QB1", "Q B", "QB", "T", "Active", 20, ["QB"]⟩] ["TE", "QB"]).2
     ⟨⟨"QB1", "Q B", "QB", "T", "Active", 20, ["QB"]⟩, "QB"⟩ (by decide)⟩

/-- C3 counterexample: WR1 and RB1 tie at 10 points, WR1 appears first in the
input pool, both are FLEX-eligible — yet the FLEX slot selects RB1, because
the FLEX scan visits the RB group before the WR group and a tie never
replaces the incumbent.  The claimed "earlier in the input player list wins"
is false across position groups. -/
theorem c3_counterexample :
    (optimizeLineup
      (groupPlayersByPosition
        [⟨"WR1", "W R1", "WR", "T", "Active", 10, ["WR"]⟩,
         ⟨"RB1", "R B1", "RB", "T", "Active", 10, ["RB"]⟩])
      ["FLEX"]).map (fun e => e.player.playerId) = ["RB1"] ∧
    ("WR1" : String) ≠ "RB1" := by
  decide

/-- C3 (amended): within one position group the tie-break law holds — each
group is sorted descending by projected points with equal-point players kept
in input order (stability: the equal-point sublist is preserved by the
sort), and a Fixed slot therefore selects the earlier-input player of an
equal-point pair.  Across position groups, however, a FLEX/SUPER_FLEX tie
goes to the group scanned first, not to input order (see the
counterexample). -/
theorem c3_tiebreak_within_group :
    (∀ (l : List PoolPlayer) (c : ℚ),
      (sortDesc l).filter (fun x => x.projectedPoints = c) =
        l.filter (fun x => x.projectedPoints = c)) ∧
    (∀ (p q : PoolPlayer) (pos : String),
      p.projectedPoints = q.projectedPoints →
      p.eligiblePositions = [pos] → q.eligiblePositions = [pos] →
      pos ≠ "BN" → pos ≠ "FLEX" → pos ≠ "SUPER_FLEX" →
      (optimizeLineup (groupPlayersByPosition [p, q]) [pos]).map
        (fun e => e.player.playerId) = [p.playerId]) := by
  constructor
  · exact fun l c => sortDesc_filter_eq c l
  · intro p q pos hpts hp hq hbn hflex hsuper
    have hgroups : groupPlayersByPosition [p, q] = [(pos, [p, q])] := by
      simp [groupPlayersByPosition, hp, hq, addToGroup, sortDesc, insertDesc,
        hpts]
    simp [optimizeLineup, optimizeLineupAux, pickForSlot, hgroups, lookupGroup,
      hbn, hflex, hsuper]

/-- C3 witness: two kickers tied at 7 points; the fixed K slot takes the one
listed first in the pool. -/
theorem c3_witness :
    (optimizeLineup
      (groupPlayersByPosition
        [⟨"P1", "P One", "K", "T", "Active", 7, ["K"]⟩,
         ⟨"P2", "P Two", "K", "T", "Active", 7, ["K"]⟩])
      ["K"]).map (fun e => e.player.playerId) = ["P1"] :=
  c3_tiebreak_within_group.2
    ⟨"P1", "P One", "K", "T", "Active", 7, ["K"]⟩
    ⟨"P2", "P Two", "K", "T", "Active", 7, ["K"]⟩
    "K" rfl rfl rfl (by decide) (by decide) (by decide)

/-- C4 counterexample: on an input that is malformed in both of the claim's
senses — an unrecognized slot kind ("XYZ_SLOT") and a player with negative
projected points — the assignment does not raise any validation error: it
runs the greedy loop and returns a lineup, even selecting the
negative-points player. -/
theorem c4_counterexample :
    optimizeLineupE [⟨"P1", "P One", "QB", "T", "Active", -5, ["QB"]⟩]
      ["QB", "XYZ_SLOT"] =
      Except.ok [⟨⟨"P1", "P One", "QB", "T", "Active", -5, ["QB"]⟩, "QB"⟩] := by
  rfl

/-- C4 (amended): the assignment never fails on any input.  Malformed inputs
are not rejected: an unrecognized slot kind is looked up as an ordinary fixed
position (and typically left unfilled), negative projected-points values
participate normally, and a slot with no eligible player is simply omitted —
so no input ever produces an error. -/
theorem c4_never_fails :
    ∀ (pool : List PoolPlayer) (slots : List String),
      ∃ l, optimizeLineupE pool slots = Except.ok l :=
  fun _ _ => ⟨_, rfl⟩

/-- C5: when the projection source data is missing or malformed — the fetch
threw, the response is non-ok, or the parsed body has no `stats` field — the
aggregation yields 0 for that player; `getProjection` is total, so no error
reaches the caller. -/
theorem c5_missing_projection_yields_zero :
    ∀ f : ProjectionFetch,
      (f = ProjectionFetch.fetchError ∨
        (∃ d, f = ProjectionFetch.response false d) ∨
        (∃ d, f = ProjectionFetch.response true d ∧ d.stats = none)) →
      getProjection f = 0 := by
  intro f h
  rcases h with rfl | ⟨d, rfl⟩ | ⟨d, rfl, hs⟩
  · rfl
  · rfl
  · simp [getProjection, hs]

/-- C5 witness: a thrown fetch yields projection 0. -/
theorem c5_witness : getProjection ProjectionFetch.fetchError = 0 :=
  c5_missing_projection_yields_zero ProjectionFetch.fetchError (Or.inl rfl)

/-- C6 counterexample: the pool construction rounds projections to two
decimals (line 105) before any comparison.  Raw projections 9.996 (B1, listed
first) and 10.004 (A1) both round to 10, so the sort and the WR slot see a
tie introduced by the premature rounding and select B1 by input order — even
though at full precision A1 projects strictly higher.  The claim that
internal comparisons use full-precision values is false of the code. -/
theorem c6_counterexample :
    (optimizeLineup
      (groupPlayersByPosition
        (mkPool ["B1", "A1"]
          (fun pid =>
            if pid = "B1" then
              some ⟨"B", "One", "WR", "T", "Active", some ["WR"], []⟩
            else if pid = "A1" then
              some ⟨"A", "One", "WR", "T", "Active", some ["WR"], []⟩
            else none)
          (fun pid =>
            if pid = "B1" then some (9996/1000)
            else if pid = "A1" then some (10004/1000) else none)))
      ["WR"]).map (fun e => e.player.playerId) = ["B1"] ∧
    (9996/1000 : ℚ) < 10004/1000 := by
  have hB : round2 (9996/1000) = 10 := by norm_num [round2, Int.floor_eq_iff]
  have hA : round2 (10004/1000) = 10 := by norm_num [round2, Int.floor_eq_iff]
  have hpool :
      mkPool ["B1", "A1"]
        (fun pid =>
          if pid = "B1" then
            some ⟨"B", "One", "WR", "T", "Active", some ["WR"], []⟩
          else if pid = "A1" then
            some ⟨"A", "One", "WR", "T", "Active", some ["WR"], []⟩
          else none)
        (fun pid =>
          if pid = "B1" then some (9996/1000)
          else if pid = "A1" then some (10004/1000) else none) =
      [⟨"B1", "B One", "WR", "T", "Active", round2 (9996/1000), ["WR"]⟩,
       ⟨"A1", "A One", "WR", "T", "Active", round2 (10004/1000), ["WR"]⟩] := rfl
  rw [hB, hA] at hpool
  rw [hpool]
  constructor
  · decide
  · norm_num

/-- C6 (amended): projected points are rounded to two decimals already when
the player pool is constructed, before grouping, sorting and selection; every
internal comparison therefore sees only the rounded values — formally, the
pool is invariant under pre-rounding the raw projections — and rounding to
one decimal for totals happens at presentation time.  Premature rounding can
introduce rank ties (see the counterexample). -/
theorem c6_pool_sees_rounded_values :
    ∀ (ids : List PlayerId) (players : PlayerId → Option RawPlayer)
      (projections : PlayerId → Option ℚ),
      mkPool ids players (fun x => (projections x).map round2) =
        mkPool ids players projections := by
  intro ids players projections
  unfold mkPool
  have h : mkPoolEntry players (fun x => (projections x).map round2) =
      mkPoolEntry players projections := by
    funext pid
    exact mkPoolEntry_round2 players projections pid
  rw [h]

/-- C7: for every player pool and slot list, no player id appears in more
than one filled slot of the computed lineup, and the number of filled
entries never exceeds the number of non-bench slots. -/
theorem c7_no_double_booking :
    ∀ (pool : List PoolPlayer) (slots : List String),
      ((optimizeLineup (groupPlayersByPosition pool) slots).map
        (fun e => e.player.playerId)).Nodup ∧
      (optimizeLineup (groupPlayersByPosition pool) slots).length ≤
        (slots.filter (fun s => s ≠ "BN")).length := by
  intro pool slots
  exact ⟨(optimizeLineupAux_notMem_nodup (groupPlayersByPosition pool) slots []).2,
    optimizeLineupAux_length (groupPlayersByPosition pool) slots []⟩

/-- C8: the assignment is a pure function of its inputs — two invocations on
the identical pool (same order) and slot list produce identical lineups,
including which slots are omitted, and identical totals. -/
theorem c8_deterministic :
    ∀ (pool : List PoolPlayer) (slots : List String),
      optimizeLineup (groupPlayersByPosition pool) slots =
        optimizeLineup (groupPlayersByPosition pool) slots ∧
      lineupTotal (optimizeLineup (groupPlayersByPosition pool) slots) =
        lineupTotal (optimizeLineup (groupPlayersByPosition pool) slots) :=
  fun _ _ => ⟨rfl, rfl⟩

/-- C9: Scenario A — slots [QB, RB, RB, FLEX, BN] with QB1:20, RB1:15,
RB2:12, WR1:14, RB3:8 fills QB1, RB1, RB2 and gives FLEX to WR1 (14 > 8)
rather than RB3; the total is 61. -/
theorem c9_scenario_a :
    (optimizeLineup
      (groupPlayersByPosition
        [⟨"QB1", "Q B", "QB", "T", "Active", 20, ["QB"]⟩,
         ⟨"RB1", "R B1", "RB", "T", "Active", 15, ["RB"]⟩,
         ⟨"RB2", "R B2", "RB", "T", "Active", 12, ["RB"]⟩,
         ⟨"WR1", "W R1", "WR", "T", "Active", 14, ["WR"]⟩,
         ⟨"RB3", "R B3", "RB", "T", "Active", 8, ["RB"]⟩])
      ["QB", "RB", "RB", "FLEX", "BN"]).map
        (fun e => (e.player.playerId, e.lineupPosition)) =
      [("QB1", "QB"), ("RB1", "RB"), ("RB2", "RB"), ("WR1", "FLEX")] ∧
    lineupTotal
      (optimizeLineup
        (groupPlayersByPosition
          [⟨"QB1", "Q B", "QB", "T", "Active", 20, ["QB"]⟩,
           ⟨"RB1", "R B1", "RB", "T", "Active", 15, ["RB"]⟩,
           ⟨"RB2", "R B2", "RB", "T", "Active", 12, ["RB"]⟩,
           ⟨"WR1", "W R1", "WR", "T", "Active", 14, ["WR"]⟩,
           ⟨"RB3", "R B3", "RB", "T", "Active", 8, ["RB"]⟩])
        ["QB", "RB", "RB", "FLEX", "BN"]) = 61 := by
  have h :
      optimizeLineup
        (groupPlayersByPosition
          [⟨"QB1", "Q B", "QB", "T", "Active", 20, ["QB"]⟩,
           ⟨"RB1", "R B1", "RB", "T", "Active", 15, ["RB"]⟩,
           ⟨"RB2", "R B2", "RB", "T", "Active", 12, ["RB"]⟩,
           ⟨"WR1", "W R1", "WR", "T", "Active", 14, ["WR"]⟩,
           ⟨"RB3", "R B3", "RB", "T", "Active", 8, ["RB"]⟩])
        ["QB", "RB", "RB", "FLEX", "BN"] =
      [⟨⟨"QB1", "Q B", "QB", "T", "Active", 20, ["QB"]⟩, "QB"⟩,
       ⟨⟨"RB1", "R B1", "RB", "T", "Active", 15, ["RB"]⟩, "RB"⟩,
       ⟨⟨"RB2", "R B2", "RB", "T", "Active", 12, ["RB"]⟩, "RB"⟩,
       ⟨⟨"WR1", "W R1", "WR", "T", "Active", 14, ["WR"]⟩, "FLEX"⟩] := by
    decide
  rw [h]
  constructor
  · decide
  · norm_num [lineupTotal]

/-- C10: the diff emits a change at an index only when the optimal lineup has
an entry there — every emitted change's index is below the optimal lineup's
length, so at any index at or beyond its end no change is produced, even
when the actual starter differs. -/
theorem c10_no_change_beyond_optimal :
    ∀ (actual : List PlayerId) (optimal : List LineupEntry)
      (players : PlayerId → Option RawPlayer) (i : ℕ) (c : Change),
      optimal.length ≤ i → c ∈ findLineupChanges actual optimal players →
      c.position ≠ i := by
  intro actual optimal players i c hi hc
  have hlt := findChangesAux_position_lt players optimal actual 0 c hc
  exact Nat.ne_of_lt (lt_of_lt_of_le hlt hi)

/-- C10 witness: actual [QB2] against a one-entry optimal lineup produces a
change at index 0, and that change's index is not 1 (the first index past
the optimal lineup's end). -/
theorem c10_witness :
    (mkChange (fun _ => none) 0 "QB2"
      ⟨⟨"QB1", "Q B1", "QB", "T", "Active", 20, ["QB"]⟩, "QB"⟩).position ≠ 1 :=
  c10_no_change_beyond_optimal ["QB2"]
    [⟨⟨"QB1", "Q B1", "QB", "T", "Active", 20, ["QB"]⟩, "QB"⟩]
    (fun _ => none) 1
    (mkChange (fun _ => none) 0 "QB2"
      ⟨⟨"QB1", "Q B1", "QB", "T", "Active", 20, ["QB"]⟩, "QB"⟩)
    (by decide)
    (List.mem_singleton_self _)
